import Mathlib

/-!
Shallow embedding of the `gp-2-gp-it-supplier` repository
(`src/bin/helpers.py` and `src/bin/download_gpad.py`), a small pipeline that
downloads the monthly GPAD suppliers archive, extracts it, aggregates the
per-practice rows by organisation code and classifies the composite
"appointment systems" label into a single main system.

Python strings are modelled as Lean `String`s; Python's single-character
`str.split`, substring `in`, `str.endswith`, slicing, `str.capitalize` and
decimal `int()` parsing are embedded below.  Python `dict`s (which preserve
insertion order) are modelled as association lists where a new key is
appended at the end.  Code that can raise returns `Except String`; the
error strings echo the exception kinds or messages of the source.
-/

namespace GPSupplier

/-- Auxiliary worker for `pySplit`: walks the characters, accumulating the
current field (in reverse) and emitting a field at each separator. -/
def pySplitAux (sep : Char) : List Char → List Char → List String
  | [], acc => [String.mk acc.reverse]
  | c :: rest, acc =>
    if c = sep then String.mk acc.reverse :: pySplitAux sep rest []
    else pySplitAux sep rest (c :: acc)

/-- Python `s.split(sep)` for a single-character separator: always returns at
least one field; `"".split(sep) == [""]` and adjacent separators produce empty
fields, exactly as in CPython. -/
def pySplit (s : String) (sep : Char) : List String :=
  pySplitAux sep s.data []

/-- Decidable equality on `Except`, used to settle concrete instances. -/
instance {ε α : Type} [DecidableEq ε] [DecidableEq α] : DecidableEq (Except ε α)
  | .ok a, .ok b =>
    if h : a = b then .isTrue (by rw [h])
    else .isFalse (by intro hh; cases hh; exact h rfl)
  | .error a, .error b =>
    if h : a = b then .isTrue (by rw [h])
    else .isFalse (by intro hh; cases hh; exact h rfl)
  | .ok _, .error _ => .isFalse (by intro h; cases h)
  | .error _, .ok _ => .isFalse (by intro h; cases h)

/-- Substring occurrence on character lists: `sub` occurs somewhere in `l`. -/
def listInfix (sub : List Char) : List Char → Bool
  | [] => sub.isEmpty
  | c :: rest => sub.isPrefixOf (c :: rest) || listInfix sub rest

/-- Python `sub in s` (substring containment). -/
def pyContains (s sub : String) : Bool :=
  listInfix sub.data s.data

/-- Python `s.endswith(suffix)`. -/
def pyEndsWith (s suf : String) : Bool :=
  suf.data.isSuffixOf s.data

/-- Python `s[a:b]` for `0 <= a <= b` (clamped at the end of the string, as in
Python slicing). -/
def pySliceStr (s : String) (a b : Nat) : String :=
  String.mk ((s.data.drop a).take (b - a))

/-- Python `s.capitalize()`: first character upper-cased, the rest
lower-cased. -/
def pyCapitalize (s : String) : String :=
  match s.data with
  | [] => ""
  | c :: rest => String.mk (c.toUpper :: rest.map Char.toLower)

/-- Value of a nonempty all-digit character list, `none` otherwise. -/
def pyDigitsVal : List Char → Option Nat
  | [] => none
  | [c] => if c.isDigit then some (c.toNat - 48) else none
  | c :: rest =>
    if c.isDigit then
      (pyDigitsVal rest).map (fun n => (c.toNat - 48) * 10 ^ rest.length + n)
    else none

/-- Python `int(s)` on a decimal string literal: optional surrounding
whitespace, optional single sign, then one or more digits (digit-group
underscores are not modelled; none of the inputs here contain them).
Returns `none` where CPython raises `ValueError`. -/
def pyInt (s : String) : Option Int :=
  let cs := (((s.data.dropWhile Char.isWhitespace).reverse).dropWhile
    Char.isWhitespace).reverse
  match cs with
  | '+' :: rest => (pyDigitsVal rest).map Int.ofNat
  | '-' :: rest => (pyDigitsVal rest).map (fun n => -(n : Int))
  | rest => (pyDigitsVal rest).map Int.ofNat

/-- Python `os.path.join(a, b)` on POSIX, for a single extra component. -/
def ospath_join (a b : String) : String :=
  if b.data.head? = some '/' then b
  else if a = "" ∨ a.data.getLast? = some '/' then a ++ b
  else a ++ "/" ++ b

/-! ## `src/bin/helpers.py` -/

/-- The literal 12-entry month dictionary of `month_to_name`. -/
def month_name_table : List (Int × String) :=
  [(1, "january"), (2, "february"), (3, "march"), (4, "april"),
   (5, "may"), (6, "june"), (7, "july"), (8, "august"),
   (9, "september"), (10, "october"), (11, "november"), (12, "december")]

/-- `month_to_name(month)`: `int(month)` (raising `ValueError` on a
non-numeric string) followed by lookup in the 12-entry dictionary (raising
`KeyError` when outside 1..12). -/
def month_to_name (month : String) : Except String String :=
  match pyInt month with
  | none => .error "ValueError: invalid literal for int"
  | some m =>
    match month_name_table.lookup m with
    | none => .error "KeyError"
    | some name => .ok name

/-- `get_month_and_year_from_iso_month(iso_month)`: unpack
`iso_month.split("-")` into exactly two parts (raising `ValueError`
otherwise), translate the month part and return `(month_name, year)`. -/
def get_month_and_year_from_iso_month (iso_month : String) :
    Except String (String × String) :=
  match pySplit iso_month '-' with
  | [year, month] =>
    match month_to_name month with
    | .error e => .error e
    | .ok name => .ok (name, year)
  | _ => .error "ValueError: unpacking"

/-- `get_main_system_from_value(value)`: split on `"/"`; a sole token is
returned unchanged, otherwise the `EVERGREENLIFE` reseller sentinel in the
first (resp. second) position yields the second (resp. first) token, and
the first token is returned in the remaining cases.  `split` never returns
an empty list, so positions 0 and 1 exist in every multi-token branch. -/
def get_main_system_from_value (value : String) : String :=
  let systems := pySplit value '/'
  if systems.length = 1 then systems.getD 0 ""
  else if systems.getD 0 "" = "EVERGREENLIFE" then systems.getD 1 ""
  else if systems.getD 1 "" = "EVERGREENLIFE" then systems.getD 0 ""
  else systems.getD 0 ""

/-- `get_data_file_paths(unzip_dir, iso_month)`: build the search string
`<AbbrevMonth>_<YY>.csv` from the decomposed month and filter the directory
listing by it, joining each hit to the directory.  The listing
(`os.listdir`) is passed in explicitly. -/
def get_data_file_paths (unzip_dir : String) (listing : List String)
    (iso_month : String) : Except String (List String) :=
  match get_month_and_year_from_iso_month iso_month with
  | .error e => .error e
  | .ok (month, year) =>
    let abbreviated_month := pyCapitalize (pySliceStr month 0 3)
    let abbreviated_year := pySliceStr year 2 4
    let search_string := abbreviated_month ++ "_" ++ abbreviated_year ++ ".csv"
    .ok ((listing.filter (fun f => pyEndsWith f search_string)).map
      (fun f => ospath_join unzip_dir f))

/-! ## `src/bin/download_gpad.py` -/

/-- The fixed row mapping of `write_output_file`'s header: `GP Code`,
`GP Name`, `Appointment Systems`, `Main System`. -/
def header_row : List String :=
  ["GP Code", "GP Name", "Appointment Systems", "Main System"]

/-- 8192-byte slices of a fully buffered body, as `requests`'
`Response.iter_content(chunk_size=8192)` yields them once the content has
already been consumed by a non-streaming GET (`iter_slices`). -/
def chunk8192 : List Nat → List (List Nat)
  | [] => []
  | b :: rest => (b :: rest).take 8192 :: chunk8192 ((b :: rest).drop 8192)
  termination_by l => l.length
  decreasing_by simp [List.length_drop]; omega

/-- The byte sequence `download_gpad_zip_file` writes to `tmp/<month>.zip`
for a successful archive GET whose body is `body`: every `iter_content`
chunk in order, followed by one more write of the whole
`response.content`. -/
def download_written_bytes (body : List Nat) : List Nat :=
  (chunk8192 body).flatten ++ body

/-- A download card scraped from the publication page: the text of its first
`p` element and the `href` of its first anchor. -/
structure DownloadCard where
  title : String
  href : String
  deriving DecidableEq

/-- The selection rule applied to each card's title: it must contain both
`"Annex 1"` and `"CSV"`. -/
def is_annex_csv_card (d : DownloadCard) : Bool :=
  pyContains d.title "Annex 1" && pyContains d.title "CSV"

/-- `get_download_link_from_response`: return the link of the first download
card whose title passes `is_annex_csv_card`; with no cards at all raise
`"No downloads found."`, and with cards but no match raise an error
reporting the number of cards. -/
def get_download_link_from_response (downloads : List DownloadCard) :
    Except String String :=
  match downloads.find? is_annex_csv_card with
  | some d => .ok d.href
  | none =>
    if downloads.length = 0 then .error "No downloads found."
    else .error ("Found " ++ toString downloads.length ++
      " downloads. No Annex 1 CSV downloads found.")

/-- First-seen-wins insert into an insertion-ordered dictionary: a Python
`if key not in d: d[key] = v` appends the pair at the end only when the key
is absent. -/
def dictInsertNew {α : Type} (d : List (String × α)) (k : String) (v : α) :
    List (String × α) :=
  if (d.lookup k).isSome then d else d ++ [(k, v)]

/-- The loop body of `process_data_file` over the non-header rows: read
`row[1]`, `row[2]`, `row[3]` (raising `IndexError` when the row is too
short), classify the composite label and record both first-seen-wins
dictionaries. -/
def processDataRows : List (List String) →
    List (String × String × String) → List (String × String) →
    Except String (List (String × String × String) × List (String × String))
  | [], data, gp_code_to_name => .ok (data, gp_code_to_name)
  | row :: rest, data, gp_code_to_name =>
    match row.get? 1, row.get? 2, row.get? 3 with
    | some gp_code, some gp_name, some appointments_systems =>
      let main_system := get_main_system_from_value appointments_systems
      processDataRows rest
        (dictInsertNew data gp_code (appointments_systems, main_system))
        (dictInsertNew gp_code_to_name gp_code gp_name)
    | _, _, _ => .error "IndexError: list index out of range"

/-- `process_data_file`: the CSV rows are passed in place of the file; the
row at index 0 is skipped (`continue`), every later row goes through
`processDataRows`, and the two dictionaries are returned. -/
def process_data_file (rows : List (List String)) :
    Except String (List (String × String × String) × List (String × String)) :=
  processDataRows (rows.drop 1) [] []

/-- The `data` dictionary value recorded for a (sufficiently long) row:
the raw composite label at position 3 paired with its classification. -/
def rowDataValue (r : List String) : String × String :=
  (r.getD 3 "", get_main_system_from_value (r.getD 3 ""))

/-- The `gp_code_to_name` dictionary value recorded for a row: the
organisation name at position 2. -/
def rowNameValue (r : List String) : String :=
  r.getD 2 ""

/-- Total replay of the aggregation loop for one dictionary: fold
`dictInsertNew` over the rows, keying on position 1 and recording `val`.
`processDataRows` coincides with a pair of `aggDict`s whenever every row
has at least four columns. -/
def aggDict {α : Type} (val : List String → α) :
    List (List String) → List (String × α) → List (String × α)
  | [], d => d
  | row :: rest, d => aggDict val rest (dictInsertNew d (row.getD 1 "") (val row))

/-- The row loop of `write_output_file`: one output row per entry of `data`
in order, resolving the name through `gp_code_to_name` (raising `KeyError`
on a missing code). -/
def writeRows (gp_code_to_name : List (String × String)) :
    List (String × String × String) → Except String (List (List String))
  | [] => .ok []
  | (gp_code, appointment_systems, main_system) :: rest =>
    match gp_code_to_name.lookup gp_code with
    | none => .error "KeyError"
    | some name =>
      match writeRows gp_code_to_name rest with
      | .error e => .error e
      | .ok rs => .ok ([gp_code, name, appointment_systems, main_system] :: rs)

/-- `write_output_file(data, gp_code_to_name)`: the rows written to
`data/gp_suppliers.csv`, header first, then one row per aggregated code. -/
def write_output_file (data : List (String × String × String))
    (gp_code_to_name : List (String × String)) :
    Except String (List (List String)) :=
  match writeRows gp_code_to_name data with
  | .error e => .error e
  | .ok rs => .ok (header_row :: rs)

/-! ### The `main` pipeline

`main` is a straight-line sequence of stages; each of the five stages
`download_gpad_zip_file`, `unzip_gpad_zip_file`, `process_data_file`,
`write_output_file` and `remove_tmp_files` sits in its own
`try/except` block that logs the error and re-raises it, and the input-path
computation between unzip and process sits outside any such block.  The
stages' I/O outcomes are abstracted as `Except` values supplied up front;
`runMain` replays the control flow and records an ordered event trace. -/

/-- The pipeline stages of `main`, plus the unguarded input-path
computation. -/
inductive Stage where
  | download
  | unzip
  | getPath
  | process
  | write
  | cleanup
  deriving DecidableEq

/-- Observable events of one `main` run, in order. -/
inductive Event where
  | stageCompleted (s : Stage)
  | errorLogged (s : Stage) (e : String)
  | deletedZipFile (path : String)
  | deletedDir (path : String)
  deriving DecidableEq

/-- Abstract outcomes of the effectful stages of one run.  The cleanup
stage `remove_tmp_files` performs two filesystem operations in order —
`Path(zip_file_path).unlink()` and then `shutil.rmtree(unzip_dir)` — so its
outcome is split into the two operations' outcomes: a failing `rmtree`
happens only after the unlink already deleted the archive file. -/
structure PipelineStages where
  download : Except String Unit
  unzip : Except String Unit
  getPath : Except String String
  process : String → Except String
    (List (String × String × String) × List (String × String))
  write : List (String × String × String) → List (String × String) →
    Except String Unit
  unlink : Except String Unit
  rmtree : Except String Unit

/-- Result of replaying `main`: the ordered event trace and the overall
outcome (the re-raised first error, or success). -/
structure RunTrace where
  events : List Event
  result : Except String Unit
  deriving DecidableEq

/-- Replay of `main(month)` over the abstracted stage outcomes: each
guarded stage logs and re-raises its error, aborting the run; the
input-path computation aborts without logging; temporary files are deleted
only by the final cleanup stage, which unlinks `tmp/<month>.zip` first and
recursively deletes `tmp/<month>` second, so a cleanup failure between the
two operations still leaves the archive file deleted. -/
def runMain (month : String) (s : PipelineStages) : RunTrace :=
  match s.download with
  | .error e => ⟨[.errorLogged .download e], .error e⟩
  | .ok _ =>
    match s.unzip with
    | .error e => ⟨[.stageCompleted .download, .errorLogged .unzip e], .error e⟩
    | .ok _ =>
      match s.getPath with
      | .error e =>
        ⟨[.stageCompleted .download, .stageCompleted .unzip], .error e⟩
      | .ok input =>
        match s.process input with
        | .error e =>
          ⟨[.stageCompleted .download, .stageCompleted .unzip,
            .stageCompleted .getPath, .errorLogged .process e], .error e⟩
        | .ok (data, gp_code_to_name) =>
          match s.write data gp_code_to_name with
          | .error e =>
            ⟨[.stageCompleted .download, .stageCompleted .unzip,
              .stageCompleted .getPath, .stageCompleted .process,
              .errorLogged .write e], .error e⟩
          | .ok _ =>
            match s.unlink with
            | .error e =>
              ⟨[.stageCompleted .download, .stageCompleted .unzip,
                .stageCompleted .getPath, .stageCompleted .process,
                .stageCompleted .write, .errorLogged .cleanup e], .error e⟩
            | .ok _ =>
              match s.rmtree with
              | .error e =>
                ⟨[.stageCompleted .download, .stageCompleted .unzip,
                  .stageCompleted .getPath, .stageCompleted .process,
                  .stageCompleted .write,
                  .deletedZipFile ("tmp/" ++ month ++ ".zip"),
                  .errorLogged .cleanup e], .error e⟩
              | .ok _ =>
                ⟨[.stageCompleted .download, .stageCompleted .unzip,
                  .stageCompleted .getPath, .stageCompleted .process,
                  .stageCompleted .write,
                  .deletedZipFile ("tmp/" ++ month ++ ".zip"),
                  .deletedDir ("tmp/" ++ month),
                  .stageCompleted .cleanup], .ok ()⟩

/-! ## Dictionary lemmas -/

/-- A lookup succeeds exactly on the recorded keys. -/
theorem lookup_isSome_iff {κ α : Type} [BEq κ] [LawfulBEq κ]
    (l : List (κ × α)) (k : κ) :
    (l.lookup k).isSome = true ↔ k ∈ l.map Prod.fst := by
  induction l with
  | nil => simp [List.lookup]
  | cons p rest ih =>
    obtain ⟨k', v⟩ := p
    by_cases hk : k = k'
    · subst hk; simp [List.lookup]
    · have hb : (k == k') = false := beq_eq_false_iff_ne.mpr hk
      simp [List.lookup, hb, hk, ih]

/-- Lookup across an append searches the left dictionary first. -/
theorem lookup_append {κ α : Type} [BEq κ] [LawfulBEq κ]
    (l₁ l₂ : List (κ × α)) (k : κ) :
    (l₁ ++ l₂).lookup k = ((l₁.lookup k).orElse fun _ => l₂.lookup k) := by
  induction l₁ with
  | nil => simp [List.lookup]
  | cons p rest ih =>
    obtain ⟨k', v⟩ := p
    cases hb : (k == k') <;> simp [List.lookup, hb, ih, Option.orElse]

/-- Inserting a fresh key makes it found with the inserted value. -/
theorem dictInsertNew_lookup_self {α : Type} (d : List (String × α))
    (k : String) (v : α) (h : d.lookup k = none) :
    (dictInsertNew d k v).lookup k = some v := by
  simp [dictInsertNew, h, lookup_append, List.lookup, Option.orElse]

/-- `dictInsertNew` never changes the result of a lookup at another key. -/
theorem dictInsertNew_lookup_other {α : Type} (d : List (String × α))
    (k k' : String) (v : α) (h : k' ≠ k) :
    (dictInsertNew d k v).lookup k' = d.lookup k' := by
  by_cases hs : (d.lookup k).isSome
  · simp [dictInsertNew, hs]
  · have hb : (k' == k) = false := beq_eq_false_iff_ne.mpr h
    simp [dictInsertNew, hs, lookup_append, List.lookup, hb, Option.orElse]
    cases d.lookup k' <;> rfl

/-- `aggDict` preserves every existing binding (first-seen wins). -/
theorem aggDict_lookup_some {α : Type} (val : List String → α) :
    ∀ rows d k v, d.lookup k = some v →
      (aggDict val rows d).lookup k = some v := by
  intro rows
  induction rows with
  | nil => intro d k v h; simpa [aggDict] using h
  | cons row rest ih =>
    intro d k v h
    rw [show aggDict val (row :: rest) d
      = aggDict val rest (dictInsertNew d (row.getD 1 "") (val row)) from rfl]
    apply ih
    by_cases hk : k = row.getD 1 ""
    · have hs : (d.lookup (row.getD 1 "")).isSome = true := by rw [← hk, h]; rfl
      unfold dictInsertNew
      rw [if_pos hs]
      exact h
    · rw [dictInsertNew_lookup_other d (row.getD 1 "") k (val row) hk]
      exact h

/-- For a key absent from the accumulator, `aggDict` records exactly the
value of the first row bearing that key. -/
theorem aggDict_lookup_none {α : Type} (val : List String → α) :
    ∀ rows d k, d.lookup k = none →
      (aggDict val rows d).lookup k =
        (rows.find? fun r => r.getD 1 "" == k).map val := by
  intro rows
  induction rows with
  | nil => intro d k h; simpa [aggDict, List.find?] using h
  | cons row rest ih =>
    intro d k h
    rw [show aggDict val (row :: rest) d
      = aggDict val rest (dictInsertNew d (row.getD 1 "") (val row)) from rfl]
    by_cases hk : row.getD 1 "" = k
    · have hfound : ((row :: rest).find? fun r => r.getD 1 "" == k)
          = some row := List.find?_cons_of_pos _ (by simpa using hk)
      rw [hfound]
      have h' : d.lookup (row.getD 1 "") = none := by rw [hk]; exact h
      have hv : (dictInsertNew d (row.getD 1 "") (val row)).lookup k
          = some (val row) := by
        rw [← hk]
        exact dictInsertNew_lookup_self d (row.getD 1 "") (val row) h'
      rw [aggDict_lookup_some val rest _ _ _ hv]
      rfl
    · have hb : (row.getD 1 "" == k) = false :=
        beq_eq_false_iff_ne.mpr hk
      have hrest : ((row :: rest).find? fun r => r.getD 1 "" == k)
          = rest.find? fun r => r.getD 1 "" == k :=
        List.find?_cons_of_neg _ (by simpa using hk)
      rw [hrest]
      apply ih
      rw [dictInsertNew_lookup_other d (row.getD 1 "") k (val row)
        fun he => hk he.symm]
      exact h

/-- Running two `aggDict`s with different value functions over the same rows
keeps the key sequences of the two dictionaries identical. -/
theorem aggDict_keys {α β : Type} (v₁ : List String → α) (v₂ : List String → β) :
    ∀ rows d n, d.map Prod.fst = n.map Prod.fst →
      (aggDict v₁ rows d).map Prod.fst = (aggDict v₂ rows n).map Prod.fst := by
  intro rows
  induction rows with
  | nil => intro d n h; simpa [aggDict] using h
  | cons row rest ih =>
    intro d n h
    rw [show aggDict v₁ (row :: rest) d
      = aggDict v₁ rest (dictInsertNew d (row.getD 1 "") (v₁ row)) from rfl,
      show aggDict v₂ (row :: rest) n
      = aggDict v₂ rest (dictInsertNew n (row.getD 1 "") (v₂ row)) from rfl]
    apply ih
    have hs : (d.lookup (row.getD 1 "")).isSome
        = (n.lookup (row.getD 1 "")).isSome := by
      by_cases hm : row.getD 1 "" ∈ d.map Prod.fst
      · rw [(lookup_isSome_iff _ _).mpr hm,
          (lookup_isSome_iff _ _).mpr (h ▸ hm)]
      · rw [Bool.eq_false_iff.mpr fun hc => hm ((lookup_isSome_iff _ _).mp hc),
          Bool.eq_false_iff.mpr fun hc => hm (h ▸ (lookup_isSome_iff _ _).mp hc)]
    unfold dictInsertNew
    cases hd : (d.lookup (row.getD 1 "")).isSome
    · have hn : (n.lookup (row.getD 1 "")).isSome = false := by rw [← hs, hd]
      simp only [hd, hn, Bool.false_eq_true, if_false, List.map_append, h]
      rfl
    · have hn : (n.lookup (row.getD 1 "")).isSome = true := by rw [← hs, hd]
      simp only [hd, hn, if_true]
      exact h

/-! ## Aggregation-loop lemmas -/

/-- An in-range positional access returns the defaulted element. -/
theorem get?_eq_some_getD {l : List String} {i : Nat} (h : i < l.length) :
    l.get? i = some (l.getD i "") := by
  rw [List.get?_eq_getElem?, List.getElem?_eq_getElem h,
    List.getD_eq_getElem?_getD, List.getElem?_eq_getElem h]
  rfl

/-- When every row has at least the four positional columns, the fallible
loop succeeds and equals the pair of total `aggDict` folds. -/
theorem processDataRows_eq_aggDict :
    ∀ rows d n, (∀ r ∈ rows, 4 ≤ r.length) →
      processDataRows rows d n =
        .ok (aggDict rowDataValue rows d, aggDict rowNameValue rows n) := by
  intro rows
  induction rows with
  | nil => intro d n _; rfl
  | cons row rest ih =>
    intro d n h
    have hlen : 4 ≤ row.length := h row (List.mem_cons_self _ _)
    have h1 := get?_eq_some_getD (l := row) (i := 1) (by omega)
    have h2 := get?_eq_some_getD (l := row) (i := 2) (by omega)
    have h3 := get?_eq_some_getD (l := row) (i := 3) (by omega)
    simp only [processDataRows, h1, h2, h3]
    rw [show aggDict rowDataValue (row :: rest) d
      = aggDict rowDataValue rest
        (dictInsertNew d (row.getD 1 "") (rowDataValue row)) from rfl,
      show aggDict rowNameValue (row :: rest) n
      = aggDict rowNameValue rest
        (dictInsertNew n (row.getD 1 "") (rowNameValue row)) from rfl]
    exact ih _ _ fun r hr => h r (List.mem_cons_of_mem _ hr)

/-- A successful run of the loop implies every consumed row had at least
four columns (`row[3]` was read without an `IndexError`). -/
theorem processDataRows_ok_lengths :
    ∀ rows d n D N, processDataRows rows d n = .ok (D, N) →
      ∀ r ∈ rows, 4 ≤ r.length := by
  intro rows
  induction rows with
  | nil => intro d n D N _ r hr; cases hr
  | cons row rest ih =>
    intro d n D N hok r hr
    cases hg1 : row.get? 1 with
    | none => rw [processDataRows, hg1] at hok; cases hok
    | some a =>
      cases hg2 : row.get? 2 with
      | none => rw [processDataRows, hg1, hg2] at hok; cases hok
      | some b =>
        cases hg3 : row.get? 3 with
        | none => rw [processDataRows, hg1, hg2, hg3] at hok; cases hok
        | some c =>
          rw [processDataRows, hg1, hg2, hg3] at hok
          cases hr with
          | head =>
            by_contra hcon
            have h3 : row.get? 3 = none := by
              rw [List.get?_eq_getElem?, List.getElem?_eq_none (by omega)]
            rw [h3] at hg3
            cases hg3
          | tail _ hr => exact ih _ _ _ _ hok r hr

/-- A successful `process_data_file` produces exactly the two total
aggregation folds over the non-header rows. -/
theorem process_data_file_ok_iff_aggDict {rows : List (List String)}
    {data : List (String × String × String)} {names : List (String × String)}
    (hok : process_data_file rows = .ok (data, names)) :
    data = aggDict rowDataValue (rows.drop 1) [] ∧
    names = aggDict rowNameValue (rows.drop 1) [] := by
  have hlen := processDataRows_ok_lengths (rows.drop 1) [] [] data names hok
  have := processDataRows_eq_aggDict (rows.drop 1) [] [] hlen
  rw [process_data_file] at hok
  rw [hok] at this
  injection this with h
  injection h with h1 h2
  exact ⟨h1, h2⟩

/-- `writeRows` succeeds, producing the expected row per entry in order,
whenever every aggregated code resolves in the name dictionary. -/
theorem writeRows_ok (names : List (String × String)) :
    ∀ data : List (String × String × String),
      (∀ p ∈ data, (names.lookup p.1).isSome = true) →
      writeRows names data = .ok (data.map fun p =>
        [p.1, (names.lookup p.1).getD "", p.2.1, p.2.2]) := by
  intro data
  induction data with
  | nil => intro _; rfl
  | cons p rest ih =>
    intro h
    obtain ⟨code, sys, main⟩ := p
    have hp : (names.lookup code).isSome = true :=
      h _ (List.mem_cons_self _ _)
    obtain ⟨nm, hnm⟩ := Option.isSome_iff_exists.mp hp
    rw [show writeRows names ((code, sys, main) :: rest)
      = (match names.lookup code with
        | none => .error "KeyError"
        | some name =>
          match writeRows names rest with
          | .error e => .error e
          | .ok rs => .ok ([code, name, sys, main] :: rs)) from rfl,
      hnm, ih fun q hq => h q (List.mem_cons_of_mem _ hq)]
    simp [hnm]

/-- Concatenating the `iter_content` chunks in order reproduces the body. -/
theorem chunk8192_flatten : ∀ l : List Nat, (chunk8192 l).flatten = l := by
  have H : ∀ n (l : List Nat), l.length = n → (chunk8192 l).flatten = l := by
    intro n
    induction n using Nat.strong_induction_on with
    | _ n ih =>
      intro l hn
      cases l with
      | nil => simp [chunk8192]
      | cons b rest =>
        simp only [chunk8192, List.flatten_cons]
        have hlt : ((b :: rest).drop 8192).length < n := by
          rw [List.length_drop, ← hn]
          simp only [List.length_cons]
          omega
        rw [ih _ hlt _ rfl]
        exact List.take_append_drop _ _
  intro l
  exact H l.length l rfl

/-! ## Claim theorems -/

/-- C1 (counterexample): on the three-token input `"EVERGREENLIFE/A/B"`,
whose first token is the sentinel, the classifier returns the second token
`"A"` and not the first token `"EVERGREENLIFE"` that the claim prescribes
for every input with three or more tokens. -/
theorem c1_counterexample_three_token_sentinel :
    get_main_system_from_value "EVERGREENLIFE/A/B" = "A" ∧
    ¬ get_main_system_from_value "EVERGREENLIFE/A/B" = "EVERGREENLIFE" := by
  exact ⟨by decide, by decide⟩

/-- C1 (amended): the classifier returns the sole token unchanged when the
input has exactly one token; the second token whenever there are two or
more tokens and the first equals `"EVERGREENLIFE"` (regardless of the total
count); and the first token in every other multi-token case, including
every input whose second or later token is the sentinel. -/
theorem get_main_system_from_value_spec (value : String) :
    ((pySplit value '/').length = 1 →
      get_main_system_from_value value = (pySplit value '/').getD 0 "") ∧
    (2 ≤ (pySplit value '/').length →
      (pySplit value '/').getD 0 "" = "EVERGREENLIFE" →
      get_main_system_from_value value = (pySplit value '/').getD 1 "") ∧
    (2 ≤ (pySplit value '/').length →
      ¬ (pySplit value '/').getD 0 "" = "EVERGREENLIFE" →
      get_main_system_from_value value = (pySplit value '/').getD 0 "") := by
  refine ⟨fun h1 => ?_, fun hl h0 => ?_, fun hl h0 => ?_⟩
  · simp [get_main_system_from_value, h1]
  · have hne : ¬ (pySplit value '/').length = 1 := by omega
    rw [List.getD_eq_getElem?_getD] at h0
    simp [get_main_system_from_value, hne, h0, List.getD_eq_getElem?_getD]
  · have hne : ¬ (pySplit value '/').length = 1 := by omega
    rw [List.getD_eq_getElem?_getD] at h0
    simp [get_main_system_from_value, hne, h0, List.getD_eq_getElem?_getD,
      ite_self]

/-- C1 (witness): the amended rule evaluated at `"EVERGREENLIFE/TPP"` — two
tokens with the sentinel first classify to the second token. -/
theorem get_main_system_from_value_spec_witness :
    get_main_system_from_value "EVERGREENLIFE/TPP"
      = (pySplit "EVERGREENLIFE/TPP" '/').getD 1 "" :=
  (get_main_system_from_value_spec "EVERGREENLIFE/TPP").2.1
    (by decide) (by decide)

/-- C2 (code bug): the chunk loop already writes the whole buffered body,
and the extra `f.write(response.content)` appends a second copy, so for
every body the archive file receives the body twice; in particular for the
2-byte body `[80, 75]` (`"PK"`) the file holds 4 bytes, not the body. -/
theorem download_writes_body_twice :
    (∀ body : List Nat, download_written_bytes body = body ++ body) ∧
    download_written_bytes [80, 75] = [80, 75, 80, 75] ∧
    ¬ download_written_bytes [80, 75] = [80, 75] := by
  have hgen : ∀ body : List Nat, download_written_bytes body = body ++ body := by
    intro body
    rw [download_written_bytes, chunk8192_flatten]
  refine ⟨hgen, by rw [hgen]; rfl, by rw [hgen]; decide⟩

/-- C4: link resolution returns the link of the first download card whose
title contains both `"Annex 1"` and `"CSV"`; an empty card list fails with
`"No downloads found."`, and a nonempty list with no matching card fails
with an error reporting the number of cards considered. -/
theorem get_download_link_spec :
    (∀ pre card post, (∀ d ∈ pre, is_annex_csv_card d = false) →
      is_annex_csv_card card = true →
      get_download_link_from_response (pre ++ card :: post) = .ok card.href) ∧
    get_download_link_from_response [] = .error "No downloads found." ∧
    (∀ downloads, ¬ downloads = [] →
      (∀ d ∈ downloads, is_annex_csv_card d = false) →
      get_download_link_from_response downloads =
        .error ("Found " ++ toString downloads.length ++
          " downloads. No Annex 1 CSV downloads found.")) := by
  refine ⟨?_, rfl, ?_⟩
  · intro pre card post hpre hcard
    have hfind : ∀ pre' : List DownloadCard,
        (∀ d ∈ pre', is_annex_csv_card d = false) →
        (pre' ++ card :: post).find? is_annex_csv_card = some card := by
      intro pre'
      induction pre' with
      | nil => intro _; exact List.find?_cons_of_pos _ hcard
      | cons d rest ih =>
        intro h
        rw [List.cons_append, List.find?_cons_of_neg _
          (by simp [h d (List.mem_cons_self _ _)])]
        exact ih fun x hx => h x (List.mem_cons_of_mem _ hx)
    simp [get_download_link_from_response, hfind pre hpre]
  · intro downloads hne hall
    have hfind : downloads.find? is_annex_csv_card = none :=
      List.find?_eq_none.mpr fun x hx => by simp [hall x hx]
    have hlen : ¬ downloads.length = 0 :=
      fun h => hne (List.length_eq_zero.mp h)
    simp [get_download_link_from_response, hfind, hlen]

/-- C4 (witness): a single matching card resolves to its link. -/
theorem get_download_link_spec_witness :
    get_download_link_from_response
      ([⟨"Annex 1 - CSV files", "suppliers.zip"⟩] : List DownloadCard)
      = .ok "suppliers.zip" :=
  get_download_link_spec.1 [] ⟨"Annex 1 - CSV files", "suppliers.zip"⟩ []
    (fun d hd => absurd hd (List.not_mem_nil d)) (by decide)

/-- C6: any month reference that splits into a year part and a month part
parsing to an integer between 1 and 12 decomposes to the table's lowercase
English month name paired with the year string verbatim; in particular
`"2025-01"` gives `("january", "2025")` and `"2025-10"` gives
`("october", "2025")`. -/
theorem get_month_and_year_valid :
    (∀ iso y m k, pySplit iso '-' = [y, m] → pyInt m = some k →
      1 ≤ k → k ≤ 12 →
      ∃ name, month_name_table.lookup k = some name ∧
        get_month_and_year_from_iso_month iso = .ok (name, y)) ∧
    get_month_and_year_from_iso_month "2025-01" = .ok ("january", "2025") ∧
    get_month_and_year_from_iso_month "2025-10" = .ok ("october", "2025") := by
  refine ⟨?_, by decide, by decide⟩
  intro iso y m k hsplit hint h1 h12
  have hlook : ∃ name, month_name_table.lookup k = some name := by
    interval_cases k <;> exact ⟨_, rfl⟩
  obtain ⟨name, hname⟩ := hlook
  refine ⟨name, hname, ?_⟩
  simp only [get_month_and_year_from_iso_month, hsplit, month_to_name,
    hint, hname]

/-- C6 (witness): the general rule evaluated at `"2025-03"`. -/
theorem get_month_and_year_valid_witness :
    ∃ name, month_name_table.lookup 3 = some name ∧
      get_month_and_year_from_iso_month "2025-03" = .ok (name, "2025") :=
  get_month_and_year_valid.1 "2025-03" "2025" "03" 3
    (by decide) (by decide) (by decide) (by decide)

/-- C10: month decomposition errors out on any input that does not split on
`"-"` into exactly two parts, and on any month part that does not parse to
an integer between 1 and 12; the successful outcome depends only on the
month part and passes the year part through verbatim (it is never
validated); non-zero-padded month parts such as `"2025-1"` are accepted. -/
theorem get_month_and_year_error_cases :
    (∀ iso, ¬ (pySplit iso '-').length = 2 →
      get_month_and_year_from_iso_month iso = .error "ValueError: unpacking") ∧
    (∀ iso y m, pySplit iso '-' = [y, m] →
      get_month_and_year_from_iso_month iso =
        match month_to_name m with
        | .error e => .error e
        | .ok name => .ok (name, y)) ∧
    (∀ m k, pyInt m = some k → k < 1 ∨ 12 < k →
      month_to_name m = .error "KeyError") ∧
    (∀ m, pyInt m = none →
      month_to_name m = .error "ValueError: invalid literal for int") ∧
    get_month_and_year_from_iso_month "2025-13" = .error "KeyError" ∧
    get_month_and_year_from_iso_month "2025" = .error "ValueError: unpacking" ∧
    get_month_and_year_from_iso_month "2025-1" = .ok ("january", "2025") := by
  refine ⟨?_, ?_, ?_, ?_, by decide, by decide, by decide⟩
  · intro iso h
    rcases hs : pySplit iso '-' with _ | ⟨a, _ | ⟨b, _ | ⟨c, t⟩⟩⟩
    · simp [get_month_and_year_from_iso_month, hs]
    · simp [get_month_and_year_from_iso_month, hs]
    · exact absurd (by rw [hs]; rfl) h
    · simp [get_month_and_year_from_iso_month, hs]
  · intro iso y m hs
    simp only [get_month_and_year_from_iso_month, hs]
  · intro m k hint hk
    have hnone : month_name_table.lookup k = none := by
      cases hlk : month_name_table.lookup k with
      | none => rfl
      | some v =>
        have hmem : k ∈ month_name_table.map Prod.fst :=
          (lookup_isSome_iff _ _).mp (by rw [hlk]; rfl)
        rw [show month_name_table.map Prod.fst
          = [1, 2, 3, 4, 5, 6, 7, 8, 9, 10, 11, 12] from rfl] at hmem
        simp at hmem
        omega
    simp only [month_to_name, hint, hnone]
  · intro m hnone
    simp only [month_to_name, hnone]

/-- C10 (witness): the failure rules at `"2025-99"` — the month part parses
to 99, which falls outside 1..12, so decomposition fails with the lookup
error. -/
theorem get_month_and_year_error_cases_witness :
    get_month_and_year_from_iso_month "2025-99" =
      match month_to_name "99" with
      | .error e => .error e
      | .ok name => .ok (name, "2025") :=
  get_month_and_year_error_cases.2.1 "2025-99" "2025" "99" (by decide)

/-- C7: for a month reference that decomposes to `(name, year)`, the data
file search returns exactly the listed entries ending in the search string
built from the capitalized three-letter month prefix and the year's digits
at positions 2-3, each joined with the directory; for month `"2025-10"`
that search string is `"Oct_25.csv"`. -/
theorem get_data_file_paths_spec :
    (∀ unzip_dir listing iso name year,
      get_month_and_year_from_iso_month iso = .ok (name, year) →
      get_data_file_paths unzip_dir listing iso =
        .ok ((listing.filter fun f => pyEndsWith f
            (pyCapitalize (pySliceStr name 0 3) ++ "_"
              ++ pySliceStr year 2 4 ++ ".csv")).map
          fun f => ospath_join unzip_dir f)) ∧
    (∀ unzip_dir listing,
      get_data_file_paths unzip_dir listing "2025-10" =
        .ok ((listing.filter fun f => pyEndsWith f "Oct_25.csv").map
          fun f => ospath_join unzip_dir f)) := by
  have hgen : ∀ unzip_dir listing iso name year,
      get_month_and_year_from_iso_month iso = .ok (name, year) →
      get_data_file_paths unzip_dir listing iso =
        .ok ((listing.filter fun f => pyEndsWith f
            (pyCapitalize (pySliceStr name 0 3) ++ "_"
              ++ pySliceStr year 2 4 ++ ".csv")).map
          fun f => ospath_join unzip_dir f) := by
    intro u l iso name year h
    simp only [get_data_file_paths, h]
  refine ⟨hgen, ?_⟩
  intro u l
  rw [hgen u l "2025-10" "october" "2025" (by decide)]
  rw [show pyCapitalize (pySliceStr "october" 0 3) ++ "_"
    ++ pySliceStr "2025" 2 4 ++ ".csv" = "Oct_25.csv" by decide]

/-- C7 (witness): the search at `"2025-10"` over a two-entry listing keeps
exactly the entry ending in `"Oct_25.csv"`, joined to the directory. -/
theorem get_data_file_paths_spec_witness :
    get_data_file_paths "tmp/2025-10"
      ["Practice_Level_Crosstab_Midlands_Oct_25.csv", "Other_Nov_25.csv"]
      "2025-10"
      = .ok (((["Practice_Level_Crosstab_Midlands_Oct_25.csv",
          "Other_Nov_25.csv"] : List String).filter fun f => pyEndsWith f
            (pyCapitalize (pySliceStr "october" 0 3) ++ "_"
              ++ pySliceStr "2025" 2 4 ++ ".csv")).map
          fun f => ospath_join "tmp/2025-10" f) :=
  get_data_file_paths_spec.1 "tmp/2025-10"
    ["Practice_Level_Crosstab_Midlands_Oct_25.csv", "Other_Nov_25.csv"]
    "2025-10" "october" "2025" (by decide)

/-- Shared consequence of a successful aggregation: the two dictionaries
carry the same key sequence, so every aggregated code resolves in the name
dictionary. -/
theorem process_names_resolve {rows : List (List String)}
    {data : List (String × String × String)} {names : List (String × String)}
    (hok : process_data_file rows = .ok (data, names)) :
    data.map Prod.fst = names.map Prod.fst ∧
    ∀ p ∈ data, (names.lookup p.1).isSome = true := by
  obtain ⟨hd, hn⟩ := process_data_file_ok_iff_aggDict hok
  have hkeys : data.map Prod.fst = names.map Prod.fst := by
    rw [hd, hn]
    exact aggDict_keys rowDataValue rowNameValue (rows.drop 1) [] [] rfl
  refine ⟨hkeys, fun p hp => ?_⟩
  apply (lookup_isSome_iff names p.1).mpr
  rw [← hkeys]
  exact List.mem_map_of_mem Prod.fst hp

/-- C3: the aggregation step ignores the row at index 0 entirely (any
header row yields the same result), reads code, name and composite label
from fixed positions 1, 2 and 3, and for each organisation code records the
label pair and the name of the first row bearing that code, later rows with
a seen code leaving both recorded values unchanged. -/
theorem process_data_file_first_seen :
    ∀ hdr rest, (∀ r ∈ rest, 4 ≤ r.length) →
      ∃ data names, process_data_file (hdr :: rest) = .ok (data, names) ∧
        (∀ code, data.lookup code =
          (rest.find? fun r => r.getD 1 "" == code).map rowDataValue) ∧
        (∀ code, names.lookup code =
          (rest.find? fun r => r.getD 1 "" == code).map rowNameValue) := by
  intro hdr rest h
  have hok : process_data_file (hdr :: rest)
      = .ok (aggDict rowDataValue rest [], aggDict rowNameValue rest []) := by
    rw [process_data_file, show (hdr :: rest).drop 1 = rest from rfl,
      processDataRows_eq_aggDict rest [] [] h]
  exact ⟨_, _, hok,
    fun code => aggDict_lookup_none rowDataValue rest [] code rfl,
    fun code => aggDict_lookup_none rowNameValue rest [] code rfl⟩

/-- C3 (witness): a table with a header and two rows sharing the code
`"A1"` records only the first row's label pair and name. -/
theorem process_data_file_first_seen_witness :
    ∃ data names,
      process_data_file
        [["header"],
         ["0", "A1", "Test Surgery", "EVERGREENLIFE/TPP"],
         ["0", "A1", "Other Name", "MEDICUS"]] = .ok (data, names) ∧
      (∀ code, data.lookup code =
        (([["0", "A1", "Test Surgery", "EVERGREENLIFE/TPP"],
           ["0", "A1", "Other Name", "MEDICUS"]] :
            List (List String)).find? fun r => r.getD 1 "" == code).map
          rowDataValue) ∧
      (∀ code, names.lookup code =
        (([["0", "A1", "Test Surgery", "EVERGREENLIFE/TPP"],
           ["0", "A1", "Other Name", "MEDICUS"]] :
            List (List String)).find? fun r => r.getD 1 "" == code).map
          rowNameValue) :=
  process_data_file_first_seen ["header"]
    [["0", "A1", "Test Surgery", "EVERGREENLIFE/TPP"],
     ["0", "A1", "Other Name", "MEDICUS"]] (by decide)

/-- C9: the two dictionaries of a successful `process_data_file` carry
exactly the same keys, and `write_output_file` applied to them can never
reach its missing-name failure branch. -/
theorem process_write_keys_aligned :
    ∀ rows data names, process_data_file rows = .ok (data, names) →
      data.map Prod.fst = names.map Prod.fst ∧
      ∃ out, write_output_file data names = .ok out := by
  intro rows data names hok
  obtain ⟨hkeys, hres⟩ := process_names_resolve hok
  refine ⟨hkeys, header_row :: data.map fun p =>
    [p.1, (names.lookup p.1).getD "", p.2.1, p.2.2], ?_⟩
  simp only [write_output_file, writeRows_ok names data hres]

/-- C9 (witness): the key alignment at a one-row table. -/
theorem process_write_keys_aligned_witness :
    ([("A1", ("EVERGREENLIFE/TPP", "TPP"))].map Prod.fst
      = [("A1", "Test Surgery")].map Prod.fst) ∧
    ∃ out, write_output_file [("A1", ("EVERGREENLIFE/TPP", "TPP"))]
      [("A1", "Test Surgery")] = .ok out :=
  process_write_keys_aligned
    [["header"], ["0", "A1", "Test Surgery", "EVERGREENLIFE/TPP"]]
    [("A1", ("EVERGREENLIFE/TPP", "TPP"))] [("A1", "Test Surgery")]
    (by decide)

/-- C5: on the mappings of a successful aggregation the writer emits the
fixed header row first and then exactly one four-column row per aggregated
organisation code, in the dictionary's first-seen insertion order, with the
name resolved through the name mapping. -/
theorem write_output_file_spec :
    ∀ rows data names, process_data_file rows = .ok (data, names) →
      write_output_file data names = .ok (header_row :: data.map
        fun p => [p.1, (names.lookup p.1).getD "", p.2.1, p.2.2]) := by
  intro rows data names hok
  obtain ⟨_, hres⟩ := process_names_resolve hok
  simp only [write_output_file, writeRows_ok names data hres]

/-- C5 (witness): the output rows for a two-practice table, header first,
rows in first-seen order. -/
theorem write_output_file_spec_witness :
    write_output_file
      [("A1", ("EVERGREENLIFE/TPP", "TPP")), ("B2", ("MEDICUS", "MEDICUS"))]
      [("A1", "Test Surgery"), ("B2", "Second Surgery")]
      = .ok (header_row ::
        ([("A1", ("EVERGREENLIFE/TPP", "TPP")),
          ("B2", ("MEDICUS", "MEDICUS"))].map
          fun p => [p.1, (([("A1", "Test Surgery"),
            ("B2", "Second Surgery")] :
              List (String × String)).lookup p.1).getD "", p.2.1, p.2.2])) :=
  write_output_file_spec
    [["h"], ["0", "A1", "Test Surgery", "EVERGREENLIFE/TPP"],
     ["0", "B2", "Second Surgery", "MEDICUS"]]
    [("A1", ("EVERGREENLIFE/TPP", "TPP")), ("B2", ("MEDICUS", "MEDICUS"))]
    [("A1", "Test Surgery"), ("B2", "Second Surgery")]
    (by decide)

/-- C8: only `tmp/<month>.zip` and `tmp/<month>` are ever deleted, and any
deletion event happens only in a run whose write stage completed; each
guarded stage that fails logs its error, re-raises the same error, and
aborts the run with no later stage event and no deletion; the cleanup
stage unlinks the archive before removing the directory, so a cleanup
failure before the unlink deletes nothing, a failure between the two
operations leaves exactly the archive deleted, and a fully successful run
deletes both, in that order, after the write stage. -/
theorem main_cleanup_last_and_failfast :
    ∀ month s,
      (∀ p, Event.deletedZipFile p ∈ (runMain month s).events →
        p = "tmp/" ++ month ++ ".zip" ∧
        Event.stageCompleted Stage.write ∈ (runMain month s).events) ∧
      (∀ p, Event.deletedDir p ∈ (runMain month s).events →
        p = "tmp/" ++ month ∧
        Event.stageCompleted Stage.write ∈ (runMain month s).events) ∧
      (∀ e, s.download = .error e →
        runMain month s = ⟨[.errorLogged .download e], .error e⟩) ∧
      (∀ e, s.download = .ok () → s.unzip = .error e →
        runMain month s
          = ⟨[.stageCompleted .download, .errorLogged .unzip e], .error e⟩) ∧
      (∀ e input, s.download = .ok () → s.unzip = .ok () →
        s.getPath = .ok input → s.process input = .error e →
        runMain month s = ⟨[.stageCompleted .download, .stageCompleted .unzip,
          .stageCompleted .getPath, .errorLogged .process e], .error e⟩) ∧
      (∀ e input data names, s.download = .ok () → s.unzip = .ok () →
        s.getPath = .ok input → s.process input = .ok (data, names) →
        s.write data names = .error e →
        runMain month s = ⟨[.stageCompleted .download, .stageCompleted .unzip,
          .stageCompleted .getPath, .stageCompleted .process,
          .errorLogged .write e], .error e⟩) ∧
      (∀ e input data names, s.download = .ok () → s.unzip = .ok () →
        s.getPath = .ok input → s.process input = .ok (data, names) →
        s.write data names = .ok () → s.unlink = .error e →
        runMain month s = ⟨[.stageCompleted .download, .stageCompleted .unzip,
          .stageCompleted .getPath, .stageCompleted .process,
          .stageCompleted .write, .errorLogged .cleanup e], .error e⟩) ∧
      (∀ e input data names, s.download = .ok () → s.unzip = .ok () →
        s.getPath = .ok input → s.process input = .ok (data, names) →
        s.write data names = .ok () → s.unlink = .ok () →
        s.rmtree = .error e →
        runMain month s = ⟨[.stageCompleted .download, .stageCompleted .unzip,
          .stageCompleted .getPath, .stageCompleted .process,
          .stageCompleted .write,
          .deletedZipFile ("tmp/" ++ month ++ ".zip"),
          .errorLogged .cleanup e], .error e⟩) ∧
      (∀ input data names, s.download = .ok () → s.unzip = .ok () →
        s.getPath = .ok input → s.process input = .ok (data, names) →
        s.write data names = .ok () → s.unlink = .ok () →
        s.rmtree = .ok () →
        runMain month s = ⟨[.stageCompleted .download, .stageCompleted .unzip,
          .stageCompleted .getPath, .stageCompleted .process,
          .stageCompleted .write,
          .deletedZipFile ("tmp/" ++ month ++ ".zip"),
          .deletedDir ("tmp/" ++ month), .stageCompleted .cleanup],
          .ok ()⟩) := by
  intro month s
  refine ⟨?_, ?_, ?_, ?_, ?_, ?_, ?_, ?_, ?_⟩
  · intro p hp
    cases hdl : s.download with
    | error e => simp [runMain, hdl] at hp
    | ok u =>
      cases u
      cases huz : s.unzip with
      | error e => simp [runMain, hdl, huz] at hp
      | ok u =>
        cases u
        cases hgp : s.getPath with
        | error e => simp [runMain, hdl, huz, hgp] at hp
        | ok input =>
          cases hpr : s.process input with
          | error e => simp [runMain, hdl, huz, hgp, hpr] at hp
          | ok pr =>
            obtain ⟨data, names⟩ := pr
            cases hwr : s.write data names with
            | error e => simp [runMain, hdl, huz, hgp, hpr, hwr] at hp
            | ok u =>
              cases u
              cases hul : s.unlink with
              | error e =>
                simp [runMain, hdl, huz, hgp, hpr, hwr, hul] at hp
              | ok u =>
                cases u
                cases hrm : s.rmtree with
                | error e =>
                  simp [runMain, hdl, huz, hgp, hpr, hwr, hul, hrm] at hp
                  refine ⟨by simpa using hp, ?_⟩
                  simp [runMain, hdl, huz, hgp, hpr, hwr, hul, hrm]
                | ok u =>
                  cases u
                  simp [runMain, hdl, huz, hgp, hpr, hwr, hul, hrm] at hp
                  refine ⟨by simpa using hp, ?_⟩
                  simp [runMain, hdl, huz, hgp, hpr, hwr, hul, hrm]
  · intro p hp
    cases hdl : s.download with
    | error e => simp [runMain, hdl] at hp
    | ok u =>
      cases u
      cases huz : s.unzip with
      | error e => simp [runMain, hdl, huz] at hp
      | ok u =>
        cases u
        cases hgp : s.getPath with
        | error e => simp [runMain, hdl, huz, hgp] at hp
        | ok input =>
          cases hpr : s.process input with
          | error e => simp [runMain, hdl, huz, hgp, hpr] at hp
          | ok pr =>
            obtain ⟨data, names⟩ := pr
            cases hwr : s.write data names with
            | error e => simp [runMain, hdl, huz, hgp, hpr, hwr] at hp
            | ok u =>
              cases u
              cases hul : s.unlink with
              | error e =>
                simp [runMain, hdl, huz, hgp, hpr, hwr, hul] at hp
              | ok u =>
                cases u
                cases hrm : s.rmtree with
                | error e =>
                  simp [runMain, hdl, huz, hgp, hpr, hwr, hul, hrm] at hp
                | ok u =>
                  cases u
                  simp [runMain, hdl, huz, hgp, hpr, hwr, hul, hrm] at hp
                  refine ⟨by simpa using hp, ?_⟩
                  simp [runMain, hdl, huz, hgp, hpr, hwr, hul, hrm]
  · intro e h
    simp [runMain, h]
  · intro e h1 h2
    simp [runMain, h1, h2]
  · intro e input h1 h2 h3 h4
    simp [runMain, h1, h2, h3, h4]
  · intro e input data names h1 h2 h3 h4 h5
    simp [runMain, h1, h2, h3, h4, h5]
  · intro e input data names h1 h2 h3 h4 h5 h6
    simp [runMain, h1, h2, h3, h4, h5, h6]
  · intro e input data names h1 h2 h3 h4 h5 h6 h7
    simp [runMain, h1, h2, h3, h4, h5, h6, h7]
  · intro input data names h1 h2 h3 h4 h5 h6 h7
    simp [runMain, h1, h2, h3, h4, h5, h6, h7]

/-- C8 (witness): a run for month `"2025-01"` whose recursive directory
removal fails deletes the archive first, logs and re-raises the cleanup
error — deletions still happened only after the write stage completed. -/
theorem main_cleanup_last_and_failfast_witness :
    runMain "2025-01"
      ⟨.ok (), .ok (), .ok "input.csv", fun _ => .ok ([], []),
        fun _ _ => .ok (), .ok (), .error "rmtree failed"⟩
      = ⟨[.stageCompleted .download, .stageCompleted .unzip,
          .stageCompleted .getPath, .stageCompleted .process,
          .stageCompleted .write, .deletedZipFile "tmp/2025-01.zip",
          .errorLogged .cleanup "rmtree failed"], .error "rmtree failed"⟩ :=
  (main_cleanup_last_and_failfast "2025-01"
      ⟨.ok (), .ok (), .ok "input.csv", fun _ => .ok ([], []),
        fun _ _ => .ok (), .ok (), .error "rmtree failed"⟩).2.2.2.2.2.2.2.1
    "rmtree failed" "input.csv" [] [] rfl rfl rfl rfl rfl rfl rfl

end GPSupplier
